import Mathlib

/-!
Verification of `Tools/i18n/msgfmt.py` (PO-to-MO message catalog compiler).

This file gives a shallow embedding of the PO text parser and the MO binary
encoder of `msgfmt.py`.  Python byte strings are modelled as `List Nat` (one
entry per byte), Python `str` values as `List Nat` of Unicode code points, and
every function that can raise an exception returns `Except Err _`.  Exception
values carry the data their Python counterparts carry: the parser's own
`ValueError` diagnostics carry the filename and line number interpolated into
their message; exceptions raised by the Python runtime itself
(`AttributeError`, `TypeError`, `IndexError`, `KeyError`) carry neither.
-/

deriving instance DecidableEq for Except

/-- Python `bytes`: a list of byte values. -/
abbrev Bytes := List Nat

/-- Python `str`: a list of Unicode code points. -/
abbrev PStr := List Nat

/-! ### Character classes and low-level string helpers -/

/-- ASCII whitespace used by `bytes.strip`: space, `\t`, `\n`, `\r`, `\v`, `\f`. -/
def isWsAscii (b : Nat) : Bool := b ∈ [9, 10, 11, 12, 13, 32]

/-- Whitespace for `str.strip` and the regex class `\s` on `str`, restricted to
code points below 256 (the only ones a latin-1 decode can yield): ASCII
whitespace, the file/group/record/unit separators 0x1C-0x1F, NEL 0x85 and
NBSP 0xA0. -/
def isWsU (c : Nat) : Bool := c ∈ [9, 10, 11, 12, 13, 28, 29, 30, 31, 32, 133, 160]

/-- Regex `\d` restricted to the latin-1 range: the ASCII digits. -/
def isDigitC (c : Nat) : Bool := 48 ≤ c && c ≤ 57

/-- Regex `[0-9a-fA-F]`. -/
def isHexC (c : Nat) : Bool :=
  (48 ≤ c && c ≤ 57) || (97 ≤ c && c ≤ 102) || (65 ≤ c && c ≤ 70)

/-- `s.startswith(pat)` for byte or code-point lists (argument order:
pattern first, then the scanned sequence). -/
def startsw : List Nat → List Nat → Bool
  | [], _ => true
  | _ :: _, [] => false
  | p :: ps, c :: cs => p == c && startsw ps cs

/-- Python `pat in s`: substring containment. -/
def containsSub (pat : List Nat) : List Nat → Bool
  | [] => startsw pat []
  | l@(_ :: rest) => startsw pat l || containsSub pat rest

/-- Python `str.removeprefix`. -/
def removePre (s pre : PStr) : PStr :=
  if startsw pre s then s.drop pre.length else s

/-- `str.strip()`: remove leading and trailing whitespace. -/
def stripStr (s : PStr) : PStr :=
  ((s.dropWhile isWsU).reverse.dropWhile isWsU).reverse

/-- `bytes.splitlines()`: split on `\n`, `\r\n` and `\r`; no trailing empty
line is produced for input ending in a line break. -/
def splitlines : Bytes → Bytes → List Bytes
  | [], acc => if acc = [] then [] else [acc.reverse]
  | 10 :: rest, acc => acc.reverse :: splitlines rest []
  | 13 :: 10 :: rest, acc => acc.reverse :: splitlines rest []
  | 13 :: rest, acc => acc.reverse :: splitlines rest []
  | b :: rest, acc => splitlines rest (b :: acc)

/-- `int()` of a run of decimal digit code points. -/
def natFromDigits (ds : PStr) : Nat :=
  ds.foldl (fun n d => n * 10 + (d - 48)) 0

/-! ### Keyword and literal constants (code-point / byte lists) -/

/-- `"msgctxt"` -/
def kwMsgctxt : List Nat := [109, 115, 103, 99, 116, 120, 116]
/-- `"msgid"` -/
def kwMsgid : List Nat := [109, 115, 103, 105, 100]
/-- `"msgid_plural"` -/
def kwMsgidPlural : List Nat := [109, 115, 103, 105, 100, 95, 112, 108, 117, 114, 97, 108]
/-- `"msgstr"` -/
def kwMsgstr : List Nat := [109, 115, 103, 115, 116, 114]
/-- `"msgstr["` : the literal part of the regex `^msgstr\[(\d+)\]`. -/
def kwMsgstrBracket : List Nat := [109, 115, 103, 115, 116, 114, 91]
/-- `b"fuzzy"` -/
def fuzzyBytes : Bytes := [102, 117, 122, 122, 121]
/-- `codecs.BOM_UTF8 = b"\xef\xbb\xbf"` -/
def bomUtf8 : Bytes := [239, 187, 191]
/-- `"latin-1"` -/
def latin1Name : PStr := [108, 97, 116, 105, 110, 45, 49]
/-- `"Content-Type:"` -/
def contentTypeHdr : PStr := [67, 111, 110, 116, 101, 110, 116, 45, 84, 121, 112, 101, 58]
/-- `"charset="` -/
def charsetParam : PStr := [99, 104, 97, 114, 115, 101, 116, 61]

/-! ### Data model -/

/-- The `POSection` enum of `msgfmt.py`: the sections of a PO file. -/
inductive POSection
  | comment
  | ctxt
  | id
  | plural
  | str
  deriving DecidableEq, Repr

/-- The `msgstr` field of a `Message`: a plain string for non-plural entries
or a list of strings for plural entries (`msgstr: str | list[str]`). -/
inductive MsgStr
  | single (s : PStr)
  | plural (l : List PStr)
  deriving DecidableEq, Repr

/-- `len()` of the current `msgstr` value (string length or list length). -/
def MsgStr.pyLen : MsgStr → Nat
  | .single s => s.length
  | .plural l => l.length

/-- A key of the catalog dictionary: `msgid` alone, or the pair
`(msgctxt, msgid)` for a contexted record.  The same shape is used for the
encoder, whose dictionary holds byte keys. -/
inductive POKey
  | single (msgid : List Nat)
  | pair (msgctxt msgid : List Nat)
  deriving DecidableEq, Repr

/-- `_key_for(msgid, msgctxt)` from the source. -/
def keyFor (msgid : List Nat) (msgctxt : Option (List Nat)) : POKey :=
  match msgctxt with
  | none => .single msgid
  | some c => .pair c msgid

/-- `_format_key(msgid, msgctxt)` from the source:
`b"%b\x04%b" % (msgctxt, msgid)` when a context is present. -/
def formatKey (msgid : List Nat) (msgctxt : Option (List Nat)) : List Nat :=
  match msgctxt with
  | none => msgid
  | some c => c ++ [4] ++ msgid

/-- The `Message` dataclass of `msgfmt.py`. -/
structure Message where
  msgctxt : Option PStr := none
  msgid : PStr
  msgid_plural : Option PStr := none
  msgstr : MsgStr := .single []
  fuzzy : Bool := false
  deriving DecidableEq, Repr

/-- The `key` property of `Message`: `_key_for(self.msgid, self.msgctxt)`. -/
def Message.key (m : Message) : POKey := keyFor m.msgid m.msgctxt

/-- Error values.  `valueError` models the parser's own
`ValueError(f"{filename}:{lineno}: ...")` diagnostics, `bomValueError` the
BOM rejection (whose message interpolates the filename but no line number),
and the remaining constructors model exceptions the Python runtime raises
from the implementation itself, which carry neither filename nor line
number. -/
inductive ErrKind
  /-- `f"Duplicate entry: {key!r}"` -/
  | duplicateEntry (key : POKey)
  /-- `"Missing msgid after msgctxt"` -/
  | missingMsgid
  /-- `"Missing msgstr after msgid"` -/
  | missingMsgstr
  /-- `f"{kw} not allowed after {section}"` (comment/msgctxt/msgid_plural/msgid/msgstr lines) -/
  | notAllowed (kw : List Nat) (sect : Option POSection)
  /-- `"msgid_plural must be preceded by msgid"` / `"msgstr must be preceded by msgid"` -/
  | mustFollowMsgid (kw : List Nat)
  /-- `"Missing msgid_plural section"` -/
  | missingMsgidPlural
  /-- `f"Plural form has incorrect index, found '{index}' but should be '{next_plural_index}'"` -/
  | pluralIndex (found expected : Nat)
  /-- `"Indexed msgstr required after msgid_plural"` -/
  | indexedMsgstrRequired
  /-- `"msgstr not allowed after msgstr"` -/
  | msgstrAfterMsgstr
  /-- `f"Syntax error before:\n{line}"` in `parse_line` -/
  | strayLine (l : PStr)
  /-- `f"Syntax error: {line}"` in `parse_quoted_strings` -/
  | malformedLine (l : PStr)
  /-- `f"Invalid escape sequence: '{escape}'"` -/
  | invalidEscape (esc : PStr)
  deriving DecidableEq, Repr

inductive Err
  /-- The BOM rejection: `ValueError(f"The file {filename} starts with a UTF-8 BOM ...")`;
  the message carries the filename but no line number. -/
  | bomValueError (filename : String)
  /-- A parser diagnostic `ValueError(f"{filename}:{lineno}: ...")`. -/
  | valueError (filename : String) (lineno : Nat) (kind : ErrKind)
  /-- `AttributeError` from the runtime (e.g. reading a nonexistent attribute). -/
  | attributeError
  /-- `TypeError` from the runtime (e.g. `str + None`, `str + bytes`). -/
  | typeError
  /-- `IndexError` from the runtime (e.g. `[][-1]`). -/
  | indexError
  /-- `KeyError` from a failed dictionary lookup. -/
  | keyError
  deriving DecidableEq, Repr

/-- The `ParserState` dataclass.  The Python field `section` is called `sect`
here (`section` is a Lean keyword); `messages` is the insertion-ordered
dictionary, modelled as an association list without duplicate keys. -/
structure ParserState where
  filename : String
  lineno : Nat := 0
  /-- Start off assuming latin-1 (field default `'latin-1'`). -/
  encoding : PStr := latin1Name
  sect : Option POSection := none
  curr_msg : Message := { msgid := [] }
  messages : List (POKey × Message) := []
  deriving DecidableEq, Repr

/-- `ParserState(filename)`: all other fields take their dataclass defaults. -/
def initState (filename : String) : ParserState := { filename := filename }

/-- Dictionary lookup on an association list (Python `key in dict` /
`dict[key]`; dictionaries never hold duplicate keys). -/
def alookup {α β : Type} [DecidableEq α] : List (α × β) → α → Option β
  | [], _ => none
  | (k, v) :: rest, key => if k = key then some v else alookup rest key

/-! ### Quoted-string parsing (`parse_quoted_strings` / `parse_quoted_string`) -/

/-- The characters allowed after a backslash by the escape-validation regex
`\\[^"\\abfnrtvx0-7]` (complement of its negated class): `"`, `\`, `a`, `b`,
`f`, `n`, `r`, `t`, `v`, `x` and the octal digits `0`-`7`. -/
def isAllowedEscChar (c : Nat) : Bool :=
  c ∈ [34, 92, 97, 98, 102, 110, 114, 116, 118, 120] || (48 ≤ c && c ≤ 55)

/-- `re.search(r'\\[^"\\abfnrtvx0-7]|\\x[^0-9a-fA-F]', string)`: scan left to
right; at each position try `\\[^...]` first, then `\\x[^hex]`; on a match
return `match.group()`.  (Scanning advances one character at a time, so
`"\\q"` — an escaped backslash followed by `q` — is still flagged, exactly as
the regex behaves.) -/
def findBadEscape : PStr → Option PStr
  | 92 :: c :: rest =>
    if ¬ isAllowedEscChar c then some [92, c]
    else if c = 120 then
      match rest with
      | d :: _ => if ¬ isHexC d then some [92, 120, d] else findBadEscape (c :: rest)
      | [] => findBadEscape (c :: rest)
    else findBadEscape (c :: rest)
  | _ :: rest => findBadEscape rest
  | [] => none

/-- `parse_quoted_string(state, string)` validates the escape sequences of one
quoted segment and raises on a disallowed one.  The function body contains no
`return` statement, so on success it returns `None` — modelled as `Unit`. -/
def parse_quoted_string (filename : String) (lineno : Nat) (s : PStr) : Except Err Unit :=
  match findBadEscape s with
  | some esc => .error (.valueError filename lineno (.invalidEscape esc))
  | none => .ok ()

/-- State of the scanner for the regex `^("([^"\\]|\\.)*"\s*)+$` (one or more
whitespace-separated quoted strings).  The alternation inside the quotes is
deterministic — `[^"\\]` and `\\.` are disjoint on their first character — so
a single left-to-right pass decides the match. -/
inductive QSState
  /-- outside a quoted string; the flag records whether one was already seen -/
  | between (seen : Bool)
  /-- inside a quoted string -/
  | inStr
  /-- inside a quoted string, right after a backslash -/
  | esc
  deriving DecidableEq, Repr

/-- Left-to-right decision procedure for `^("([^"\\]|\\.)*"\s*)+$`. -/
def qsScan : PStr → QSState → Bool
  | [], .between seen => seen
  | [], _ => false
  | c :: rest, .between seen =>
    if c = 34 then qsScan rest .inStr
    else if seen && isWsU c then qsScan rest (.between true)
    else false
  | c :: rest, .inStr =>
    if c = 34 then qsScan rest (.between true)
    else if c = 92 then qsScan rest .esc
    else qsScan rest .inStr
  | _ :: rest, .esc => qsScan rest .inStr

/-- Body scan for one match of `"([^"\\]|\\.)*"`: consume characters after the
opening quote until the closing quote, treating a backslash plus any one
character as a unit; return the full matched segment (quotes included) and
the rest of the input. -/
def scanPartBody : PStr → PStr → Option (PStr × PStr)
  | [], _ => none
  | 34 :: rest, acc => some ((34 :: acc).reverse, rest)
  | 92 :: c :: rest, acc => scanPartBody rest (c :: 92 :: acc)
  | 92 :: [], _ => none
  | c :: rest, acc => scanPartBody rest (c :: acc)

/-- The first match of `re.finditer(r'"([^"\\]|\\.)*"', line)`: skip to the
first `"` and take one quoted segment from there. -/
def firstQuotedPart : PStr → Option PStr
  | [] => none
  | 34 :: rest => (scanPartBody rest [34]).map Prod.fst
  | _ :: rest => firstQuotedPart rest

/-- `parse_quoted_strings(state, line)`.  After stripping, an empty line
yields `''`; a line that does not match the quoted-strings regex raises the
`Syntax error:` diagnostic.  Otherwise the loop body runs
`string += parse_quoted_string(state, part)` on the first segment:
`parse_quoted_string` validates that segment's escapes (possibly raising the
invalid-escape diagnostic) and returns `None`, so the `+=` raises
`TypeError` — no later segment is ever reached. -/
def parse_quoted_strings (filename : String) (lineno : Nat) (line : PStr) :
    Except Err PStr :=
  let line := stripStr line
  if line = [] then .ok []
  else if ¬ qsScan line (.between false) then
    .error (.valueError filename lineno (.malformedLine line))
  else
    match firstQuotedPart line with
    | none => .ok []
    | some part =>
      match parse_quoted_string filename lineno part with
      | .error e => .error e
      | .ok _ => .error .typeError

/-! ### Encoding discovery -/

/-- The tail of `s` after the first occurrence of `pat`, if any. -/
def afterSub (pat : List Nat) : List Nat → Option (List Nat)
  | [] => if pat = [] then some [] else none
  | l@(_ :: rest) =>
    if startsw pat l then some (l.drop pat.length) else afterSub pat rest

/-- Split a string on `\n` (code point 10). -/
def splitNl : PStr → PStr → List PStr
  | [], acc => [acc.reverse]
  | 10 :: rest, acc => acc.reverse :: splitNl rest []
  | c :: rest, acc => splitNl rest (c :: acc)

/-- Modelled from the spec: `HeaderParser().parsestr(msgstr).get_content_charset()`
lives in `email.parser`, outside `src/`.  Per the spec, the header block "is
scanned for a `Content-Type: ...; charset=...` field"; the model takes the
first line starting with `Content-Type:`, and within it the token following
`charset=` up to a `;` or whitespace.  Returns `none` when no such field is
present. -/
def getContentCharset (s : PStr) : Option PStr :=
  match (splitNl s []).filter (fun l => startsw contentTypeHdr (stripStr l)) with
  | [] => none
  | line :: _ =>
    match afterSub charsetParam line with
    | none => none
    | some rest => some (rest.takeWhile (fun c => ¬ (c = 59 || isWsU c)))

/-- `_get_encoding(msgstr)` for a string argument:
`charset or 'latin-1'` — a missing or empty charset falls back to latin-1. -/
def getEncoding (s : PStr) : PStr :=
  match getContentCharset s with
  | some c => if c = [] then latin1Name else c
  | none => latin1Name

/-- `_get_encoding` applied to the raw `msgstr` field: `HeaderParser.parsestr`
expects a `str`, so a plural (list-valued) `msgstr` raises `TypeError`. -/
def getEncodingE : MsgStr → Except Err PStr
  | .single s => .ok (getEncoding s)
  | .plural _ => .error .typeError

/-- Modelled from the spec: `line.decode(state.encoding)` uses the codecs
machinery outside `src/`.  The default charset latin-1 maps each byte to the
code point of the same value and never fails; no other charset can become
active during a parse (a charset only changes when a record with empty
`msgid` is committed, and no `msgstr` line ever succeeds — see
`Message.isPluralE`), so decoding is modelled as that byte-to-code-point
identity for every encoding name. -/
def decodeLine (_encoding : PStr) (bs : Bytes) : PStr := bs

/-! ### The line handlers -/

/-- The `is_plural` property of `Message` reads
`self.curr_msg.msgid_plural` — but `Message` objects have no `curr_msg`
attribute (its fields are `msgctxt`, `msgid`, `msgid_plural`, `msgstr`,
`fuzzy`), so every access raises `AttributeError`. -/
def Message.isPluralE (_m : Message) : Except Err Bool := .error .attributeError

/-- `ParserState.add_message`.  (The Python method takes a `key` parameter it
immediately overwrites with `self.curr_msg.key`; callers pass `state`.)
Raises the duplicate-entry diagnostic when the key is already present,
otherwise inserts the record, refreshes the encoding when the committed
record is the header (empty `msgid`), and resets `curr_msg`. -/
def add_message (st : ParserState) : Except Err ParserState :=
  let key := st.curr_msg.key
  match alookup st.messages key with
  | some _ => .error (.valueError st.filename st.lineno (.duplicateEntry key))
  | none =>
    let msgs := st.messages ++ [(key, st.curr_msg)]
    if st.curr_msg.msgid = [] then
      match getEncodingE st.curr_msg.msgstr with
      | .error e => .error e
      | .ok enc =>
        .ok { st with messages := msgs, encoding := enc, curr_msg := { msgid := [] } }
    else
      .ok { st with messages := msgs, curr_msg := { msgid := [] } }

/-- `parse_comment(state, line)`. -/
def parse_comment (st : ParserState) (line : Bytes) : Except Err ParserState :=
  if ¬ (st.sect ∈ [none, some POSection.comment, some POSection.str]) then
    .error (.valueError st.filename st.lineno (.notAllowed [35] st.sect))
  else
    let next : Except Err ParserState :=
      if st.sect = some POSection.str then add_message st else .ok st
    match next with
    | .error e => .error e
    | .ok st =>
      let st :=
        if startsw [35, 44] line && containsSub fuzzyBytes line then
          { st with curr_msg := { st.curr_msg with fuzzy := true } }
        else st
      .ok { st with sect := some POSection.comment }

/-- `parse_msgctxt(state, line)`. -/
def parse_msgctxt (st : ParserState) (line : Bytes) : Except Err ParserState :=
  if ¬ (st.sect ∈ [none, some POSection.comment, some POSection.str]) then
    .error (.valueError st.filename st.lineno (.notAllowed kwMsgctxt st.sect))
  else
    let next : Except Err ParserState :=
      if st.sect = some POSection.str then add_message st else .ok st
    match next with
    | .error e => .error e
    | .ok st =>
      let rem := removePre (decodeLine st.encoding line) kwMsgctxt
      match parse_quoted_strings st.filename st.lineno rem with
      | .error e => .error e
      | .ok v =>
        .ok { st with curr_msg := { st.curr_msg with msgctxt := some v },
                      sect := some POSection.ctxt }

/-- `parse_msgid_plural(state, line)`. -/
def parse_msgid_plural (st : ParserState) (line : Bytes) : Except Err ParserState :=
  if st.sect = none then
    .error (.valueError st.filename st.lineno (.mustFollowMsgid kwMsgidPlural))
  else if st.sect ≠ some POSection.id then
    .error (.valueError st.filename st.lineno (.notAllowed kwMsgidPlural st.sect))
  else
    let rem := removePre (decodeLine st.encoding line) kwMsgidPlural
    match parse_quoted_strings st.filename st.lineno rem with
    | .error e => .error e
    | .ok v =>
      .ok { st with curr_msg := { st.curr_msg with msgid_plural := some v },
                    sect := some POSection.plural }

/-- `parse_msgid(state, line)`. -/
def parse_msgid (st : ParserState) (line : Bytes) : Except Err ParserState :=
  if ¬ (st.sect ∈ [none, some POSection.comment, some POSection.str,
                   some POSection.ctxt]) then
    .error (.valueError st.filename st.lineno (.notAllowed kwMsgid st.sect))
  else
    let next : Except Err ParserState :=
      if st.sect = some POSection.str then add_message st else .ok st
    match next with
    | .error e => .error e
    | .ok st =>
      let rem := removePre (decodeLine st.encoding line) kwMsgid
      match parse_quoted_strings st.filename st.lineno rem with
      | .error e => .error e
      | .ok v =>
        .ok { st with curr_msg := { st.curr_msg with msgid := v },
                      sect := some POSection.id }

/-- `re.match(r'^msgstr\[(\d+)\]', line)`: on success return the index (the
decimal value of the digit run) and `line.removeprefix(match.group())`. -/
def matchMsgstrIndex (s : PStr) : Option (Nat × PStr) :=
  if startsw kwMsgstrBracket s then
    let after := s.drop 7
    let digits := after.takeWhile isDigitC
    let rest := after.drop digits.length
    if digits = [] then none
    else
      match rest with
      | 93 :: rest2 => some (natFromDigits digits, rest2)
      | _ => none
  else none

/-- `parse_msgstr(state, line)`.  Both the indexed and the plain branch start
by reading `state.curr_msg.is_plural`, which raises `AttributeError` (see
`Message.isPluralE`); the remainder of each branch is embedded faithfully
even though it is unreachable.  In the indexed branch, `state.curr_msg.msgstr`
is never `None` (it is initialised to `''`), so the `msgstr = []` reset never
fires, and `state.curr_msg.msgstr.append(...)` on a `str` value raises
`AttributeError` before its argument is evaluated. -/
def parse_msgstr (st : ParserState) (line : Bytes) : Except Err ParserState :=
  if st.sect = none then
    .error (.valueError st.filename st.lineno (.mustFollowMsgid kwMsgstr))
  else if ¬ (st.sect ∈ [some POSection.str, some POSection.id,
                        some POSection.plural]) then
    .error (.valueError st.filename st.lineno (.notAllowed kwMsgstr st.sect))
  else
    let dline := decodeLine st.encoding line
    match matchMsgstrIndex dline with
    | some (index, rest) =>
      match st.curr_msg.isPluralE with
      | .error e => .error e
      | .ok plural =>
        if ¬ plural then
          .error (.valueError st.filename st.lineno .missingMsgidPlural)
        else
          let nextPluralIndex := st.curr_msg.msgstr.pyLen
          if index ≠ nextPluralIndex then
            .error (.valueError st.filename st.lineno
              (.pluralIndex index nextPluralIndex))
          else
            match st.curr_msg.msgstr with
            | .single _ => .error .attributeError
            | .plural l =>
              match parse_quoted_strings st.filename st.lineno rest with
              | .error e => .error e
              | .ok v =>
                .ok { st with
                  curr_msg := { st.curr_msg with msgstr := .plural (l ++ [v]) },
                  sect := some POSection.str }
    | none =>
      match st.curr_msg.isPluralE with
      | .error e => .error e
      | .ok plural =>
        if plural then
          .error (.valueError st.filename st.lineno .indexedMsgstrRequired)
        else if st.sect = some POSection.str then
          .error (.valueError st.filename st.lineno .msgstrAfterMsgstr)
        else
          match parse_quoted_strings st.filename st.lineno (removePre dline kwMsgstr) with
          | .error e => .error e
          | .ok v =>
            .ok { st with curr_msg := { st.curr_msg with msgstr := .single v },
                          sect := some POSection.str }

/-- `parse_line(state, line)`: a bare continuation line is parsed as quoted
strings and appended to the field of the open section.  A `None`-valued
`msgctxt`/`msgid_plural` would make the `+=` raise `TypeError`, and
`msgstr[-1]` on an empty list raises `IndexError`; with no open section the
`Syntax error before:` diagnostic (interpolating the parsed line) is
raised. -/
def parse_line (st : ParserState) (line : Bytes) : Except Err ParserState :=
  match parse_quoted_strings st.filename st.lineno (decodeLine st.encoding line) with
  | .error e => .error e
  | .ok v =>
    match st.sect with
    | some POSection.ctxt =>
      match st.curr_msg.msgctxt with
      | none => .error .typeError
      | some c => .ok { st with curr_msg := { st.curr_msg with msgctxt := some (c ++ v) } }
    | some POSection.plural =>
      match st.curr_msg.msgid_plural with
      | none => .error .typeError
      | some p =>
        .ok { st with curr_msg := { st.curr_msg with msgid_plural := some (p ++ v) } }
    | some POSection.id =>
      .ok { st with curr_msg := { st.curr_msg with msgid := st.curr_msg.msgid ++ v } }
    | some POSection.str =>
      match st.curr_msg.msgstr with
      | .plural l =>
        match l.getLast? with
        | none => .error .indexError
        | some last =>
          .ok { st with curr_msg :=
            { st.curr_msg with msgstr := .plural (l.dropLast ++ [last ++ v]) } }
      | .single s =>
        .ok { st with curr_msg := { st.curr_msg with msgstr := .single (s ++ v) } }
    | _ => .error (.valueError st.filename st.lineno (.strayLine v))

/-! ### The parser driver -/

/-- One iteration of the `for line in po.splitlines()` loop: bump the line
counter, skip blank lines, dispatch on the first token. -/
def processLine (st0 : ParserState) (line : Bytes) : Except Err ParserState :=
  let st := { st0 with lineno := st0.lineno + 1 }
  if line.all isWsAscii then .ok st
  else if startsw [35] line then parse_comment st line
  else if startsw kwMsgctxt line then parse_msgctxt st line
  else if startsw kwMsgidPlural line then parse_msgid_plural st line
  else if startsw kwMsgid line then parse_msgid st line
  else if startsw kwMsgstr line then parse_msgstr st line
  else parse_line st line

/-- The parse loop: any raised error aborts the whole run. -/
def runLines : ParserState → List Bytes → Except Err ParserState
  | st, [] => .ok st
  | st, l :: rest =>
    match processLine st l with
    | .error e => .error e
    | .ok st' => runLines st' rest

/-- The final cleanup of `parse_po`: a dangling `msgctxt` or `msgid` section
is fatal; a final open `msgstr` section commits the in-progress record; the
result is `list(state.messages.values())`. -/
def finalize (st : ParserState) : Except Err (List Message) :=
  match st.sect with
  | some POSection.ctxt =>
    .error (.valueError st.filename st.lineno .missingMsgid)
  | some POSection.id =>
    .error (.valueError st.filename st.lineno .missingMsgstr)
  | some POSection.str =>
    match add_message st with
    | .error e => .error e
    | .ok st' => .ok (st'.messages.map Prod.snd)
  | _ => .ok (st.messages.map Prod.snd)

/-- `parse_po(po, filename)`: reject a UTF-8 BOM up front, then run the
line loop and the final cleanup. -/
def parse_po (po : Bytes) (filename : String) : Except Err (List Message) :=
  if startsw bomUtf8 po then .error (.bomValueError filename)
  else
    match runLines (initState filename) (splitlines po []) with
    | .error e => .error e
    | .ok st => finalize st

/-! ### The MO encoder (`generate`) -/

/-- Lexicographic `≤` on byte strings (Python `bytes` comparison: elementwise
by byte value, a strict prefix is smaller). -/
def bytesLE : List Nat → List Nat → Bool
  | [], _ => true
  | _ :: _, [] => false
  | a :: as, b :: bs => if a < b then true else if b < a then false else bytesLE as bs

/-- Ordering of catalog keys as compared by `sorted(messages.keys())`: byte
keys lexicographically, tuple keys lexicographically by component.  Python
defines no order between a byte key and a tuple key (comparing them raises
`TypeError`); the spec, which merely says keys are "sorted
lexicographically", fixes none either, so the model completes the order by
putting all plain keys before all tuple keys.  (Any catalog holding a tuple
key makes `generate` fail before producing output — see `genStep` — so the
choice is unobservable in the encoder's output.) -/
def keyLEb : POKey → POKey → Bool
  | .single a, .single b => bytesLE a b
  | .single _, .pair _ _ => true
  | .pair _ _, .single _ => false
  | .pair c i, .pair c' i' => if c = c' then bytesLE i i' else bytesLE c c'

def keyLE (a b : POKey) : Prop := keyLEb a b = true

instance : DecidableRel keyLE :=
  fun a b => inferInstanceAs (Decidable (keyLEb a b = true))

/-- Modelled from the spec: `sorted(messages.keys())` is the host sort
(outside `src/`); per the spec the final key order "is always the sorted
order of keys".  A stable total-order sort of the key list. -/
def sortKeys (keys : List POKey) : List POKey := List.insertionSort keyLE keys

/-- `messages[key]`: dictionary lookup, raising `KeyError` when absent. -/
def dictGet (messages : List (POKey × Bytes)) (k : POKey) : Except Err Bytes :=
  match alookup messages k with
  | some v => .ok v
  | none => .error .keyError

/-- The loop state of `generate`: the `offsets` list of
`(len(ids), len(id), len(strs), len(message))` tuples and the two blobs. -/
structure GenAcc where
  offsets : List (Nat × Nat × Nat × Nat)
  ids : Bytes
  strs : Bytes
  deriving DecidableEq, Repr

/-- One iteration of `generate`'s `for id in keys` loop.  `generate` receives
the catalog dictionary; its body concatenates the stored keys and values with
byte strings, i.e. it operates on a mapping from byte keys (plain, or pairs
of byte strings for contexted records) to byte values, and the embedding
types it accordingly.  After `message = messages[id]`, a tuple key rebinds
`id = _format_key(id[1], id[0])`; the subsequent `strs += messages[id]`
therefore probes the dictionary with the formatted byte key (the saved
`message` is not used), which raises `KeyError` unless the catalog happens to
contain that byte string as a plain key. -/
def genStep (messages : List (POKey × Bytes)) (acc : GenAcc) (key : POKey) :
    Except Err GenAcc :=
  match dictGet messages key with
  | .error e => .error e
  | .ok message =>
    let id2 : Bytes :=
      match key with
      | .pair c i => formatKey i (some c)
      | .single b => b
    let offsets := acc.offsets ++
      [(acc.ids.length, id2.length, acc.strs.length, message.length)]
    let ids := acc.ids ++ id2 ++ [0]
    match dictGet messages (POKey.single id2) with
    | .error e => .error e
    | .ok v => .ok { offsets := offsets, ids := ids, strs := acc.strs ++ v ++ [0] }

/-- The `for` loop with exception propagation. -/
def foldE {σ α : Type} (f : σ → α → Except Err σ) : σ → List α → Except Err σ
  | acc, [] => .ok acc
  | acc, x :: rest =>
    match f acc x with
    | .error e => .error e
    | .ok acc' => foldE f acc' rest

/-- A 32-bit little-endian integer as packed by `struct.pack` / `array("i")`
on the (little-endian) host. -/
def le32 (n : Nat) : Bytes :=
  [n % 256, n / 256 % 256, n / 65536 % 256, n / 16777216 % 256]

/-- `struct.pack("Iiiiiii", 0x950412de, 0, N, 7*4, 7*4+N*8, 0, 0)`: magic,
version, entry count, key-index offset, value-index offset, hash-table size
and offset. -/
def moHeader (n : Nat) : Bytes :=
  le32 0x950412de ++ le32 0 ++ le32 n ++ le32 (7 * 4) ++ le32 (7 * 4 + n * 8) ++
    le32 0 ++ le32 0

/-- The tail of `generate` after the loop: compute `keystart`/`valuestart`,
build the key and value index tables (`[l1, o1+keystart]`,
`[l2, o2+valuestart]` per entry), pack everything. -/
def genFinish (keys : List POKey) (acc : GenAcc) : Bytes :=
  let keystart := 7 * 4 + 16 * keys.length
  let valuestart := keystart + acc.ids.length
  let koffsets := (acc.offsets.map (fun e => [e.2.1, e.1 + keystart])).flatten
  let voffsets := (acc.offsets.map (fun e => [e.2.2.2, e.2.2.1 + valuestart])).flatten
  let offsets := koffsets ++ voffsets
  moHeader keys.length ++ (offsets.map le32).flatten ++ acc.ids ++ acc.strs

/-- `generate(messages)`: sort the keys, run the loop, pack the output. -/
def generate (messages : List (POKey × Bytes)) : Except Err Bytes :=
  let keys := sortKeys (messages.map Prod.fst)
  match foldE (genStep messages) { offsets := [], ids := [], strs := [] } keys with
  | .error e => .error e
  | .ok acc => .ok (genFinish keys acc)

/-! ### Concrete sample inputs -/

/-- `b"foo"` -/
def fooB : List Nat := [102, 111, 111]
/-- `b"bar"` -/
def barB : List Nat := [98, 97, 114]
/-- `b"Menu"` -/
def menuB : List Nat := [77, 101, 110, 117]
/-- `b"Voh"` -/
def vohB : List Nat := [86, 111, 104]

/-- `b'msgid "foo"\nmsgstr "bar"'` -/
def poFooBar : Bytes :=
  kwMsgid ++ [32, 34] ++ fooB ++ [34, 10] ++ kwMsgstr ++ [32, 34] ++ barB ++ [34]

/-- `b'msgctxt "Menu"\nmsgid "foo"\nmsgstr "Voh"'` -/
def poMenuCtx : Bytes :=
  kwMsgctxt ++ [32, 34] ++ menuB ++ [34, 10] ++
    kwMsgid ++ [32, 34] ++ fooB ++ [34, 10] ++
    kwMsgstr ++ [32, 34] ++ vohB ++ [34]

/-- `b"msgid\nmsgid_plural\nmsgstr[0]"`: a record with (empty) `msgid` and
`msgid_plural` followed by the first indexed `msgstr` — the smallest input
that reaches the indexed-`msgstr` branch (quoted remainders would already
fail in `parse_quoted_strings`). -/
def poPluralSeq : Bytes :=
  kwMsgid ++ [10] ++ kwMsgidPlural ++ [10] ++ kwMsgstrBracket ++ [48, 93]

/-- `b"msgid\nmsgid_plural\nmsgstr[0]\nmsgstr[2]"`: the claim's index-skipping
scenario. -/
def poPluralSkip : Bytes :=
  kwMsgid ++ [10] ++ kwMsgidPlural ++ [10] ++ kwMsgstrBracket ++ [48, 93] ++ [10] ++
    kwMsgstrBracket ++ [50, 93]

/-- `b"msgid\nmsgid_plural\nmsgstr"`: a plain `msgstr` on a plural record. -/
def poPlainOnPlural : Bytes :=
  kwMsgid ++ [10] ++ kwMsgidPlural ++ [10] ++ kwMsgstr

/-- `b"msgid\nmsgstr[0]"`: an indexed `msgstr` with no `msgid_plural`. -/
def poIndexedNoPlural : Bytes :=
  kwMsgid ++ [10] ++ kwMsgstrBracket ++ [48, 93]

/-- The line remainder `'"Hello, " "world!"'`. -/
def helloWorldLine : PStr :=
  [34, 72, 101, 108, 108, 111, 44, 32, 34, 32, 34, 119, 111, 114, 108, 100, 33, 34]

/-- The one-record catalog `{b"foo": b"bar"}`. -/
def catFooBar : List (POKey × Bytes) := [(.single fooB, barB)]

/-- The one-record contexted catalog `{(b"Menu", b"foo"): b"Voh"}`. -/
def catMenu : List (POKey × Bytes) := [(.pair menuB fooB, vohB)]

/-- The 52-byte MO image of `catFooBar`: 28-byte header, 8-byte key index,
8-byte value index, `b"foo\0"`, `b"bar\0"`. -/
def moFooBar : Bytes :=
  moHeader 1 ++ (le32 3 ++ le32 44) ++ (le32 3 ++ le32 48) ++
    (fooB ++ [0]) ++ (barB ++ [0])


/-- `"mac_roman"` -/
def macRomanName : PStr := [109, 97, 99, 95, 114, 111, 109, 97, 110]

/-- The header value `"Content-Type: text/plain; charset=mac_roman\n"`. -/
def hdrValue : PStr :=
  contentTypeHdr ++ [32] ++ [116, 101, 120, 116, 47, 112, 108, 97, 105, 110, 59, 32] ++
    charsetParam ++ macRomanName ++ [10]

/-- A record `msgid "foo"` / `msgstr "bar"` as the parser would hold it. -/
def msgFoo1 : Message := { msgid := fooB, msgstr := .single barB }

/-- A second record with the same key `"foo"` and a different value. -/
def msgFoo2 : Message := { msgid := fooB, msgstr := .single vohB }

/-- A state about to commit `msgFoo1` (line 2 of file `"f"`). -/
def stFoo : ParserState := { filename := "f", lineno := 2, curr_msg := msgFoo1 }

/-- The state after committing `msgFoo1` from `stFoo`. -/
def stAfterFoo : ParserState :=
  { filename := "f", lineno := 2, messages := [(.single fooB, msgFoo1)] }

/-- A state about to commit a second record with the duplicate key (line 4). -/
def stDup : ParserState := { stAfterFoo with lineno := 4, curr_msg := msgFoo2 }

/-- A state about to commit the header record whose value declares the
mac_roman charset. -/
def stHdr : ParserState :=
  { filename := "f", lineno := 3,
    curr_msg := { msgid := [], msgstr := .single hdrValue } }

/-- The state after committing the header record from `stHdr`. -/
def stHdrDone : ParserState :=
  { filename := "f", lineno := 3, encoding := macRomanName,
    messages := [(.single [], { msgid := [], msgstr := .single hdrValue })] }

/-- A state whose final open section is `msgctxt` (dangling context). -/
def stCtxtOpen : ParserState :=
  { filename := "f", lineno := 1, sect := some POSection.ctxt,
    curr_msg := { msgctxt := some menuB, msgid := [] } }

/-- A state whose final open section is `msgid` (dangling id). -/
def stIdOpen : ParserState :=
  { filename := "f", lineno := 2, sect := some POSection.id,
    curr_msg := { msgid := fooB } }

/-- A state whose final open section is `msgstr` (an in-progress record that
end-of-input must commit). -/
def stStrOpen : ParserState :=
  { filename := "f", lineno := 2, sect := some POSection.str,
    curr_msg := msgFoo1 }

/-- The state after the end-of-input commit from `stStrOpen`. -/
def stStrDone : ParserState :=
  { filename := "f", lineno := 2, sect := some POSection.str,
    messages := [(.single fooB, msgFoo1)] }

/-- Two-record catalogs with the same records in the two commit orders. -/
def cat2a : List (POKey × Bytes) := [(.single fooB, barB), (.single menuB, vohB)]

/-- `cat2a` with its records committed in the opposite order. -/
def cat2b : List (POKey × Bytes) := [(.single menuB, vohB), (.single fooB, barB)]

/-- The line `b'msgid "Hello, " "world!"'`. -/
def poHello : Bytes := kwMsgid ++ [32] ++ helloWorldLine

/-! ### Order properties of the key ordering -/

theorem bytesLE_total : ∀ a b : List Nat, bytesLE a b = true ∨ bytesLE b a = true
  | [], _ => Or.inl rfl
  | _ :: _, [] => Or.inr rfl
  | a :: as, b :: bs => by
    simp only [bytesLE]
    rcases Nat.lt_trichotomy a b with h | h | h
    · left; simp [h]
    · subst h
      simpa [Nat.lt_irrefl] using bytesLE_total as bs
    · right; simp [h, Nat.lt_asymm h]

theorem bytesLE_trans :
    ∀ a b c : List Nat, bytesLE a b = true → bytesLE b c = true → bytesLE a c = true
  | [], _, _, _, _ => rfl
  | _ :: _, [], _, h1, _ => by simp [bytesLE] at h1
  | _ :: _, _ :: _, [], _, h2 => by simp [bytesLE] at h2
  | a :: as, b :: bs, c :: cs, h1, h2 => by
    simp only [bytesLE] at h1 h2 ⊢
    by_cases hab : a < b
    · by_cases hbc : b < c
      · simp [Nat.lt_trans hab hbc]
      · by_cases hcb : c < b
        · simp [hbc, hcb] at h2
        · have : b = c := by omega
          subst this
          simp [hab]
    · by_cases hba : b < a
      · simp [hab, hba] at h1
      · have : a = b := by omega
        subst this
        simp only [Nat.lt_irrefl, if_false] at h1
        by_cases hac : a < c
        · simp [hac]
        · by_cases hca : c < a
          · simp [hac, hca] at h2
          · have : a = c := by omega
            subst this
            simp only [Nat.lt_irrefl, if_false] at h2 ⊢
            exact bytesLE_trans as bs cs h1 h2

theorem bytesLE_antisymm :
    ∀ a b : List Nat, bytesLE a b = true → bytesLE b a = true → a = b
  | [], [], _, _ => rfl
  | [], _ :: _, _, h2 => by simp [bytesLE] at h2
  | _ :: _, [], h1, _ => by simp [bytesLE] at h1
  | a :: as, b :: bs, h1, h2 => by
    simp only [bytesLE] at h1 h2
    by_cases hab : a < b
    · simp [Nat.lt_asymm hab, hab] at h2
    · by_cases hba : b < a
      · simp [hab, hba] at h1
      · have : a = b := by omega
        subst this
        simp only [Nat.lt_irrefl, if_false] at h1 h2
        rw [bytesLE_antisymm as bs h1 h2]

instance : IsTotal POKey keyLE := by
  constructor
  intro a b
  cases a with
  | single x =>
    cases b with
    | single y => exact bytesLE_total x y
    | pair _ _ => left; rfl
  | pair c i =>
    cases b with
    | single _ => right; rfl
    | pair c' i' =>
      show keyLEb (.pair c i) (.pair c' i') = true ∨ keyLEb (.pair c' i') (.pair c i) = true
      simp only [keyLEb]
      by_cases hc : c = c'
      · subst hc
        simpa using bytesLE_total i i'
      · simp [hc, Ne.symm hc]
        exact bytesLE_total c c'

instance : IsTrans POKey keyLE := by
  constructor
  intro a b c h1 h2
  cases a with
  | single x =>
    cases c with
    | single z =>
      cases b with
      | single y => exact bytesLE_trans x y z h1 h2
      | pair _ _ => exact absurd h2 (by simp [keyLE, keyLEb])
    | pair _ _ => rfl
  | pair ca ia =>
    cases b with
    | single _ => exact absurd h1 (by simp [keyLE, keyLEb])
    | pair cb ib =>
      cases c with
      | single _ => exact absurd h2 (by simp [keyLE, keyLEb])
      | pair cc ic =>
        show keyLEb (.pair ca ia) (.pair cc ic) = true
        have h1' : keyLEb (.pair ca ia) (.pair cb ib) = true := h1
        have h2' : keyLEb (.pair cb ib) (.pair cc ic) = true := h2
        simp only [keyLEb] at h1' h2' ⊢
        by_cases hab : ca = cb
        · subst hab
          by_cases hbc : ca = cc
          · subst hbc
            simp only [if_pos rfl] at h1' h2' ⊢
            exact bytesLE_trans ia ib ic h1' h2'
          · simp only [if_pos rfl] at h1'
            simp only [if_neg hbc] at h2' ⊢
            exact h2'
        · by_cases hbc : cb = cc
          · subst hbc
            simp only [if_neg hab] at h1' ⊢
            exact h1'
          · simp only [if_neg hab] at h1'
            simp only [if_neg hbc] at h2'
            by_cases hac : ca = cc
            · subst hac
              exact absurd (bytesLE_antisymm ca cb h1' h2') hab
            · simp only [if_neg hac]
              exact bytesLE_trans ca cb cc h1' h2'

instance : IsAntisymm POKey keyLE := by
  constructor
  intro a b h1 h2
  cases a with
  | single x =>
    cases b with
    | single y => rw [bytesLE_antisymm x y h1 h2]
    | pair _ _ => exact absurd h2 (by simp [keyLE, keyLEb])
  | pair ca ia =>
    cases b with
    | single _ => exact absurd h1 (by simp [keyLE, keyLEb])
    | pair cb ib =>
      have h1' : keyLEb (.pair ca ia) (.pair cb ib) = true := h1
      have h2' : keyLEb (.pair cb ib) (.pair ca ia) = true := h2
      simp only [keyLEb] at h1' h2'
      by_cases hab : ca = cb
      · subst hab
        simp only [if_pos rfl] at h1' h2'
        rw [bytesLE_antisymm ia ib h1' h2']
      · simp only [if_neg hab, if_neg (Ne.symm hab)] at h1' h2'
        exact absurd (bytesLE_antisymm ca cb h1' h2') hab

/-- Sorting is insensitive to the order of the input list. -/
theorem sortKeys_perm_eq {l1 l2 : List POKey} (h : l1.Perm l2) :
    sortKeys l1 = sortKeys l2 :=
  List.eq_of_perm_of_sorted
    ((List.perm_insertionSort keyLE l1).trans
      (h.trans (List.perm_insertionSort keyLE l2).symm))
    (List.sorted_insertionSort keyLE l1)
    (List.sorted_insertionSort keyLE l2)

/-- Association-list lookup is determined by the underlying key-value mapping:
permuting a duplicate-free association list does not change any lookup. -/
theorem alookup_perm {α β : Type} [DecidableEq α] {l1 l2 : List (α × β)}
    (h : l1.Perm l2) (nd : (l1.map Prod.fst).Nodup) (k : α) :
    alookup l1 k = alookup l2 k := by
  induction h with
  | nil => rfl
  | cons x h' ih =>
    obtain ⟨x1, x2⟩ := x
    simp only [List.map_cons, List.nodup_cons] at nd
    simp only [alookup]
    rw [ih nd.2]
  | swap x y l =>
    obtain ⟨x1, x2⟩ := x
    obtain ⟨y1, y2⟩ := y
    simp only [List.map_cons, List.nodup_cons, List.mem_cons, not_or] at nd
    have hxy : y1 ≠ x1 := nd.1.1
    simp only [alookup]
    by_cases h1 : y1 = k
    · by_cases h2 : x1 = k
      · exact absurd (h1.trans h2.symm) hxy
      · simp [h1, h2]
    · by_cases h2 : x1 = k <;> simp [h1, h2]
  | trans h12 _ ih1 ih2 =>
    rw [ih1 nd, ih2 ((h12.map Prod.fst).nodup_iff.mp nd)]

/-- Congruence for the loop runner. -/
theorem foldE_congr {σ α : Type} {f g : σ → α → Except Err σ}
    (h : ∀ acc x, f acc x = g acc x) :
    ∀ (l : List α) (acc : σ), foldE f acc l = foldE g acc l
  | [], _ => rfl
  | x :: rest, acc => by
    simp only [foldE, h acc x]
    cases g acc x with
    | error e => rfl
    | ok acc' => exact foldE_congr h rest acc'

/-! ### Location of parser diagnostics -/

theorem parse_quoted_string_err {f : String} {n : Nat} {s : PStr} {fn ln k}
    (h : parse_quoted_string f n s = .error (.valueError fn ln k)) :
    fn = f ∧ ln = n := by
  unfold parse_quoted_string at h
  split at h <;> simp_all

theorem parse_quoted_strings_err {f : String} {n : Nat} {l : PStr} {fn ln k}
    (h : parse_quoted_strings f n l = .error (.valueError fn ln k)) :
    fn = f ∧ ln = n := by
  simp only [parse_quoted_strings] at h
  split at h
  · simp at h
  · split at h
    · simp_all
    · split at h
      · simp at h
      · split at h
        · next e heq =>
          injection h with h'
          subst h'
          exact parse_quoted_string_err heq
        · simp at h

theorem add_message_err {st : ParserState} {fn ln k}
    (h : add_message st = .error (.valueError fn ln k)) :
    fn = st.filename ∧ ln = st.lineno := by
  simp only [add_message] at h
  cases hlook : alookup st.messages st.curr_msg.key with
  | some v => simp only [hlook] at h; simp_all
  | none =>
    simp only [hlook] at h
    by_cases hid : st.curr_msg.msgid = []
    · rw [if_pos hid] at h
      cases hms : st.curr_msg.msgstr with
      | single s => simp only [hms, getEncodingE] at h; simp at h
      | plural l => simp only [hms, getEncodingE] at h; simp at h
    · rw [if_neg hid] at h; simp at h

theorem add_message_ok_fields {st st' : ParserState} (h : add_message st = .ok st') :
    st'.filename = st.filename ∧ st'.lineno = st.lineno ∧
    st'.messages = st.messages ++ [(st.curr_msg.key, st.curr_msg)] ∧
    alookup st.messages st.curr_msg.key = none := by
  simp only [add_message] at h
  cases hlook : alookup st.messages st.curr_msg.key with
  | some v => simp only [hlook] at h; simp at h
  | none =>
    simp only [hlook] at h
    by_cases hid : st.curr_msg.msgid = []
    · rw [if_pos hid] at h
      cases hms : st.curr_msg.msgstr with
      | single s =>
        simp only [hms, getEncodingE] at h
        injection h with h'
        subst h'
        simp_all
      | plural l => simp only [hms, getEncodingE] at h; simp at h
    · rw [if_neg hid] at h
      injection h with h'
      subst h'
      simp_all

/-- The commit-then-continue step shared by the comment/msgctxt/msgid
handlers: its diagnostics are located at the current state. -/
theorem commit_ite_err {st : ParserState} {fn ln k}
    (heq : (if st.sect = some POSection.str then add_message st else .ok st) =
      .error (.valueError fn ln k)) :
    fn = st.filename ∧ ln = st.lineno := by
  by_cases hs : st.sect = some POSection.str
  · rw [if_pos hs] at heq
    exact add_message_err heq
  · rw [if_neg hs] at heq
    simp at heq

/-- The commit-then-continue step preserves filename and line number. -/
theorem commit_ite_ok {st st' : ParserState}
    (heq : (if st.sect = some POSection.str then add_message st else .ok st) =
      .ok st') :
    st'.filename = st.filename ∧ st'.lineno = st.lineno := by
  by_cases hs : st.sect = some POSection.str
  · rw [if_pos hs] at heq
    obtain ⟨a, b, _, _⟩ := add_message_ok_fields heq
    exact ⟨a, b⟩
  · rw [if_neg hs] at heq
    injection heq with h'
    subst h'
    exact ⟨rfl, rfl⟩

theorem parse_comment_err {st : ParserState} {l : Bytes} {fn ln k}
    (h : parse_comment st l = .error (.valueError fn ln k)) :
    fn = st.filename ∧ ln = st.lineno := by
  simp only [parse_comment] at h
  split at h
  · simp_all
  · split at h
    · next e heq =>
      injection h with h'
      subst h'
      exact commit_ite_err heq
    · simp at h

theorem parse_comment_ok {st : ParserState} {l : Bytes} {st' : ParserState}
    (h : parse_comment st l = .ok st') :
    st'.filename = st.filename ∧ st'.lineno = st.lineno := by
  simp only [parse_comment] at h
  split at h
  · simp at h
  · split at h
    · simp at h
    · next st1 heq =>
      have h1 := commit_ite_ok heq
      injection h with h'
      subst h'
      by_cases hf : (startsw [35, 44] l && containsSub fuzzyBytes l) = true
      · rw [if_pos hf]
        simpa using h1
      · rw [if_neg hf]
        simpa using h1

theorem parse_msgctxt_err {st : ParserState} {l : Bytes} {fn ln k}
    (h : parse_msgctxt st l = .error (.valueError fn ln k)) :
    fn = st.filename ∧ ln = st.lineno := by
  simp only [parse_msgctxt] at h
  split at h
  · simp_all
  · split at h
    · next e heq =>
      injection h with h'
      subst h'
      exact commit_ite_err heq
    · next st1 heq =>
      have h1 := commit_ite_ok heq
      split at h
      · next e heq2 =>
        injection h with h'
        subst h'
        have h2 := parse_quoted_strings_err heq2
        exact ⟨h2.1.trans h1.1, h2.2.trans h1.2⟩
      · simp at h

theorem parse_msgctxt_ok {st : ParserState} {l : Bytes} {st' : ParserState}
    (h : parse_msgctxt st l = .ok st') :
    st'.filename = st.filename ∧ st'.lineno = st.lineno := by
  simp only [parse_msgctxt] at h
  split at h
  · simp at h
  · split at h
    · simp at h
    · next st1 heq =>
      have h1 := commit_ite_ok heq
      split at h
      · simp at h
      · injection h with h'
        subst h'
        simpa using h1

theorem parse_msgid_plural_err {st : ParserState} {l : Bytes} {fn ln k}
    (h : parse_msgid_plural st l = .error (.valueError fn ln k)) :
    fn = st.filename ∧ ln = st.lineno := by
  simp only [parse_msgid_plural] at h
  split at h
  · simp_all
  · split at h
    · simp_all
    · split at h
      · next e heq =>
        injection h with h'
        subst h'
        exact parse_quoted_strings_err heq
      · simp at h

theorem parse_msgid_plural_ok {st : ParserState} {l : Bytes} {st' : ParserState}
    (h : parse_msgid_plural st l = .ok st') :
    st'.filename = st.filename ∧ st'.lineno = st.lineno := by
  simp only [parse_msgid_plural] at h
  split at h
  · simp at h
  · split at h
    · simp at h
    · split at h
      · simp at h
      · injection h with h'
        subst h'
        exact ⟨rfl, rfl⟩

theorem parse_msgid_err {st : ParserState} {l : Bytes} {fn ln k}
    (h : parse_msgid st l = .error (.valueError fn ln k)) :
    fn = st.filename ∧ ln = st.lineno := by
  simp only [parse_msgid] at h
  split at h
  · simp_all
  · split at h
    · next e heq =>
      injection h with h'
      subst h'
      exact commit_ite_err heq
    · next st1 heq =>
      have h1 := commit_ite_ok heq
      split at h
      · next e heq2 =>
        injection h with h'
        subst h'
        have h2 := parse_quoted_strings_err heq2
        exact ⟨h2.1.trans h1.1, h2.2.trans h1.2⟩
      · simp at h

theorem parse_msgid_ok {st : ParserState} {l : Bytes} {st' : ParserState}
    (h : parse_msgid st l = .ok st') :
    st'.filename = st.filename ∧ st'.lineno = st.lineno := by
  simp only [parse_msgid] at h
  split at h
  · simp at h
  · split at h
    · simp at h
    · next st1 heq =>
      have h1 := commit_ite_ok heq
      split at h
      · simp at h
      · injection h with h'
        subst h'
        simpa using h1

theorem parse_msgstr_err {st : ParserState} {l : Bytes} {fn ln k}
    (h : parse_msgstr st l = .error (.valueError fn ln k)) :
    fn = st.filename ∧ ln = st.lineno := by
  simp only [parse_msgstr] at h
  split at h
  · simp_all
  · split at h
    · simp_all
    · split at h
      · split at h
        · next e heq =>
          simp only [Message.isPluralE, Except.error.injEq] at heq
          subst heq
          simp at h
        · next b heq => simp [Message.isPluralE] at heq
      · split at h
        · next e heq =>
          simp only [Message.isPluralE, Except.error.injEq] at heq
          subst heq
          simp at h
        · next b heq => simp [Message.isPluralE] at heq

theorem parse_msgstr_ok {st : ParserState} {l : Bytes} {st' : ParserState}
    (h : parse_msgstr st l = .ok st') :
    st'.filename = st.filename ∧ st'.lineno = st.lineno := by
  simp only [parse_msgstr] at h
  split at h
  · simp at h
  · split at h
    · simp at h
    · split at h
      · split at h
        · simp at h
        · next b heq => simp [Message.isPluralE] at heq
      · split at h
        · simp at h
        · next b heq => simp [Message.isPluralE] at heq

theorem parse_line_err {st : ParserState} {l : Bytes} {fn ln k}
    (h : parse_line st l = .error (.valueError fn ln k)) :
    fn = st.filename ∧ ln = st.lineno := by
  simp only [parse_line] at h
  split at h
  · next e heq =>
    injection h with h'
    subst h'
    exact parse_quoted_strings_err heq
  · split at h <;> try simp_all
    · split at h <;> simp_all
    · split at h <;> simp_all
    · split at h <;> try simp_all
      split at h <;> simp_all

theorem parse_line_ok {st : ParserState} {l : Bytes} {st' : ParserState}
    (h : parse_line st l = .ok st') :
    st'.filename = st.filename ∧ st'.lineno = st.lineno := by
  simp only [parse_line] at h
  split at h
  · simp at h
  · split at h
    · split at h
      · simp at h
      · injection h with h'
        subst h'
        exact ⟨rfl, rfl⟩
    · split at h
      · simp at h
      · injection h with h'
        subst h'
        exact ⟨rfl, rfl⟩
    · injection h with h'
      subst h'
      exact ⟨rfl, rfl⟩
    · split at h
      · split at h
        · simp at h
        · injection h with h'
          subst h'
          exact ⟨rfl, rfl⟩
      · injection h with h'
        subst h'
        exact ⟨rfl, rfl⟩
    · simp at h

theorem processLine_err {st : ParserState} {l : Bytes} {fn ln k}
    (h : processLine st l = .error (.valueError fn ln k)) :
    fn = st.filename ∧ ln = st.lineno + 1 := by
  simp only [processLine] at h
  split at h
  · simp at h
  · split at h
    · exact parse_comment_err h
    · split at h
      · exact parse_msgctxt_err h
      · split at h
        · exact parse_msgid_plural_err h
        · split at h
          · exact parse_msgid_err h
          · split at h
            · exact parse_msgstr_err h
            · exact parse_line_err h

theorem processLine_ok {st : ParserState} {l : Bytes} {st' : ParserState}
    (h : processLine st l = .ok st') :
    st'.filename = st.filename ∧ st'.lineno = st.lineno + 1 := by
  simp only [processLine] at h
  split at h
  · injection h with h'
    subst h'
    exact ⟨rfl, rfl⟩
  · split at h
    · exact parse_comment_ok h
    · split at h
      · exact parse_msgctxt_ok h
      · split at h
        · exact parse_msgid_plural_ok h
        · split at h
          · exact parse_msgid_ok h
          · split at h
            · exact parse_msgstr_ok h
            · exact parse_line_ok h

theorem runLines_err :
    ∀ (ls : List Bytes) (st : ParserState) (fn : String) (ln : Nat) (k : ErrKind),
      runLines st ls = .error (.valueError fn ln k) → fn = st.filename ∧ 1 ≤ ln
  | [], _, _, _, _, h => by simp [runLines] at h
  | l :: rest, st, fn, ln, k, h => by
    simp only [runLines] at h
    split at h
    · next e heq =>
      injection h with h'
      subst h'
      have h1 := processLine_err heq
      exact ⟨h1.1, by omega⟩
    · next st1 heq =>
      have h1 := processLine_ok heq
      have h2 := runLines_err rest st1 fn ln k h
      exact ⟨h2.1.trans h1.1, h2.2⟩

theorem runLines_ok :
    ∀ (ls : List Bytes) (st st' : ParserState),
      runLines st ls = .ok st' →
      st'.filename = st.filename ∧ (st' = st ∨ 1 ≤ st'.lineno)
  | [], st, st', h => by
    simp only [runLines] at h
    injection h with h'
    subst h'
    exact ⟨rfl, Or.inl rfl⟩
  | l :: rest, st, st', h => by
    simp only [runLines] at h
    split at h
    · simp at h
    · next st1 heq =>
      have h1 := processLine_ok heq
      have h2 := runLines_ok rest st1 st' h
      refine ⟨h2.1.trans h1.1, Or.inr ?_⟩
      rcases h2.2 with he | hg
      · rw [he]
        omega
      · exact hg

theorem finalize_err {st : ParserState} {fn ln k}
    (h : finalize st = .error (.valueError fn ln k)) :
    fn = st.filename ∧ ln = st.lineno ∧ st.sect ≠ none := by
  unfold finalize at h
  split at h
  · next hs => simp_all
  · next hs => simp_all
  · next hs =>
    split at h
    · next e heq =>
      injection h with h'
      subst h'
      have h1 := add_message_err heq
      simp_all
    · simp at h
  · simp at h

/-! ### The encoder header -/

theorem moHeader_length (n : Nat) : (moHeader n).length = 28 := by
  simp [moHeader, le32]

/-- Whenever `generate` succeeds, its output starts with the 7-field header
for the catalog's entry count. -/
theorem generate_ok_header {m : List (POKey × Bytes)} {out : Bytes}
    (h : generate m = .ok out) :
    out.take 28 = moHeader m.length := by
  simp only [generate] at h
  split at h
  · simp at h
  · next acc heq =>
    injection h with h'
    subst h'
    have hlen : (sortKeys (m.map Prod.fst)).length = m.length := by
      rw [sortKeys, (List.perm_insertionSort keyLE (m.map Prod.fst)).length_eq,
        List.length_map]
    simp only [genFinish, List.append_assoc]
    rw [show (28 : Nat) = (moHeader (sortKeys (m.map Prod.fst)).length).length from
        (moHeader_length _).symm,
      List.take_left, hlen]

/-! ### The claims -/

/-- C1: the claim states that for every parsed catalog the encoder emits
`context + 0x04 + id` as the on-disk key of a contexted record, with the
concrete scenario `msgctxt "Menu" / msgid "foo" / msgstr "Voh"` yielding the
8-byte key `"Menu\x04foo"`.  `_format_key` does build that byte string, but
the pipeline fails on the code: parsing the sample raises `TypeError` (the
quoted-string loop adds `None` to a `str`), and even encoding a hand-built
contexted catalog raises `KeyError`, because after rebinding `id` to the
formatted key `generate` looks up `messages[id]` instead of using the saved
`message`. -/
theorem c1_context_key_evaluation :
    formatKey fooB (some menuB) = menuB ++ [4] ++ fooB ∧
    (formatKey fooB (some menuB)).length = 8 ∧
    parse_po poMenuCtx "f" = .error .typeError ∧
    generate catMenu = .error .keyError :=
  ⟨rfl, by decide, by decide, by decide⟩

/-- C2: for every catalog on which the encoder succeeds, the output begins
with the 7-field header — magic `0x950412DE`, version 0, entry count N,
key-index offset 28, value-index offset `28 + 8N`, hash size 0, hash offset 0
(`moHeader`) — and the one-record catalog `{b"foo": b"bar"}` encodes to
exactly the 52-byte image `moFooBar`.  The claim's parsing step fails on the
code, however: `msgid "foo"\nmsgstr "bar"` raises `TypeError` in
`parse_quoted_strings` instead of producing that catalog. -/
theorem c2_header_layout_evaluation :
    (∀ (m : List (POKey × Bytes)) (out : Bytes),
      generate m = .ok out → out.take 28 = moHeader m.length) ∧
    generate catFooBar = .ok moFooBar ∧
    moFooBar.length = 52 ∧
    parse_po poFooBar "f" = .error .typeError :=
  ⟨fun _ _ h => generate_ok_header h, by decide, by decide, by decide⟩

/-- C2 witness: the header property applied to the concrete one-record
catalog. -/
theorem c2_header_layout_evaluation_witness : moFooBar.take 28 = moHeader 1 := by
  have h := c2_header_layout_evaluation.1 catFooBar moFooBar (by decide)
  simpa [catFooBar] using h

/-- C3: the claim states that indexed `msgstr[N]` lines parse exactly when
the indices are sequential from 0, and that skipping an index fails with a
plural-index diagnostic.  On the code, every `msgstr` line — sequential or
not — raises `AttributeError` instead: `Message.is_plural` dereferences the
nonexistent `curr_msg` attribute of `Message` (and, were that fixed, the
first `msgstr[0]` would call `.append` on the default `''`, because the
reset guard tests `msgstr is None` while `msgstr` is never `None`). -/
theorem c3_plural_index_evaluation :
    parse_po poPluralSeq "f" = .error .attributeError ∧
    parse_po poPluralSkip "f" = .error .attributeError :=
  ⟨by decide, by decide⟩

/-- C4: the claim states that a well-formed sequence of quoted segments is
concatenated (e.g. `"Hello, " "world!"` to `Hello, world!`) and any other
shape raises a syntax error.  The error half holds, but the success half
fails on the code: `parse_quoted_string` validates escapes and returns
`None`, so `string += parse_quoted_string(...)` raises `TypeError` on every
line with at least one quoted segment. -/
theorem c4_quoted_concat_evaluation :
    parse_quoted_strings "f" 1 helloWorldLine = .error .typeError ∧
    parse_quoted_strings "f" 1 [97, 98, 99] =
      .error (.valueError "f" 1 (.malformedLine [97, 98, 99])) ∧
    parse_po poHello "f" = .error .typeError :=
  ⟨by decide, by decide, by decide⟩

/-- C5: the claim states that a plain `msgstr` on a plural record raises the
indexed-msgstr-required diagnostic and an indexed `msgstr[N]` without
`msgid_plural` raises the missing-msgid_plural diagnostic.  On the code both
checks read `Message.is_plural` first, which raises `AttributeError` (the
property dereferences the nonexistent `curr_msg` attribute), so neither
diagnostic is ever produced. -/
theorem c5_msgstr_plural_mismatch_evaluation :
    parse_po poPlainOnPlural "f" = .error .attributeError ∧
    parse_po poIndexedNoPlural "f" = .error .attributeError :=
  ⟨by decide, by decide⟩

/-- C6: encoding is invariant under the commit order of the records: two
catalogs holding the same key-value mapping (permutations of each other with
no duplicate keys) produce identical encoder results, because `generate`
sorts the keys before layout and every other step depends only on the
mapping. -/
theorem c6_generate_order_invariant
    (m1 m2 : List (POKey × Bytes)) (hp : m1.Perm m2)
    (hnd : (m1.map Prod.fst).Nodup) :
    generate m1 = generate m2 := by
  have hkeys : sortKeys (m1.map Prod.fst) = sortKeys (m2.map Prod.fst) :=
    sortKeys_perm_eq (hp.map Prod.fst)
  have hget : ∀ kk, dictGet m1 kk = dictGet m2 kk := by
    intro kk
    unfold dictGet
    rw [alookup_perm hp hnd kk]
  have hstep : ∀ acc kk, genStep m1 acc kk = genStep m2 acc kk := by
    intro acc kk
    simp only [genStep]
    rw [hget kk]
    cases dictGet m2 kk with
    | error e => rfl
    | ok message => rw [hget]
  simp only [generate]
  rw [hkeys, foldE_congr hstep]

/-- C6 witness: the two-record catalog encoded from both commit orders. -/
theorem c6_generate_order_invariant_witness : generate cat2a = generate cat2b :=
  c6_generate_order_invariant cat2a cat2b (by decide) (by decide)

/-- C7 counterexample: the BOM rejection is a parse failure whose diagnostic
carries the filename but no line number (the `bomValueError` constructor has
no line-number field), refuting "every parse failure raises a
SyntaxError-class diagnostic carrying the filename and the 1-based line
number". -/
theorem c7_bom_failure_without_lineno :
    parse_po bomUtf8 "f" = .error (.bomValueError "f") := by decide

/-- C7 (amended): parsing is all-or-nothing (any failure aborts with an
error and no catalog is returned), and every `filename:lineno:` diagnostic
the parser itself raises (`valueError`) carries the caller's filename and a
1-based line number; the BOM rejection carries the filename only. -/
theorem c7_diagnostics_located :
    (∀ (po : Bytes) (f fn : String) (ln : Nat) (k : ErrKind),
      parse_po po f = .error (.valueError fn ln k) → fn = f ∧ 1 ≤ ln) ∧
    (∀ (po : Bytes) (f : String), startsw bomUtf8 po = true →
      parse_po po f = .error (.bomValueError f)) := by
  constructor
  · intro po f fn ln k h
    unfold parse_po at h
    split at h
    · simp at h
    · split at h
      · next e heq =>
        injection h with h'
        subst h'
        exact runLines_err _ _ _ _ _ heq
      · next st heq =>
        have hf := finalize_err h
        have hr := runLines_ok _ _ _ heq
        refine ⟨hf.1.trans hr.1, ?_⟩
        rcases hr.2 with he | hg
        · exfalso
          apply hf.2.2
          rw [he]
          rfl
        · rw [hf.2.1]
          exact hg
  · intro po f hb
    simp [parse_po, hb]

/-- C7 witness: a dangling `msgctxt` fails at line 1 of file `"f"`, and the
located-diagnostic property applies to it. -/
theorem c7_diagnostics_located_witness :
    parse_po kwMsgctxt "f" = .error (.valueError "f" 1 .missingMsgid) ∧
    ("f" = "f" ∧ 1 ≤ 1) :=
  ⟨by decide, c7_diagnostics_located.1 kwMsgctxt "f" "f" 1 .missingMsgid (by decide)⟩

/-- C8: input beginning with the UTF-8 byte-order-mark is rejected before
any line processing (for every such input, whatever follows the BOM); at end
of input a dangling `msgctxt` (open context section) or dangling `msgid`
(open id section) is a fatal located error, while a final open value section
commits the in-progress record as the parser's last action (the committed
record is appended to the catalog and the values are returned). -/
theorem c8_bom_and_end_of_input :
    (∀ (po : Bytes) (f : String), startsw bomUtf8 po = true →
      parse_po po f = .error (.bomValueError f)) ∧
    (∀ st : ParserState, st.sect = some POSection.ctxt →
      finalize st = .error (.valueError st.filename st.lineno .missingMsgid)) ∧
    (∀ st : ParserState, st.sect = some POSection.id →
      finalize st = .error (.valueError st.filename st.lineno .missingMsgstr)) ∧
    (∀ st st' : ParserState, st.sect = some POSection.str →
      add_message st = .ok st' →
      finalize st = .ok (st'.messages.map Prod.snd) ∧
      st'.messages = st.messages ++ [(st.curr_msg.key, st.curr_msg)]) := by
  refine ⟨?_, ?_, ?_, ?_⟩
  · intro po f hb
    simp [parse_po, hb]
  · intro st hs
    unfold finalize
    rw [hs]
  · intro st hs
    unfold finalize
    rw [hs]
  · intro st st' hs hok
    constructor
    · unfold finalize
      rw [hs, hok]
    · exact (add_message_ok_fields hok).2.2.1

/-- C8 witness: the three end-of-input behaviours and the BOM rejection at
concrete inputs and states. -/
theorem c8_bom_and_end_of_input_witness :
    parse_po (bomUtf8 ++ poFooBar) "f" = .error (.bomValueError "f") ∧
    finalize stCtxtOpen = .error (.valueError "f" 1 .missingMsgid) ∧
    finalize stIdOpen = .error (.valueError "f" 2 .missingMsgstr) ∧
    finalize stStrOpen = .ok [msgFoo1] := by
  refine ⟨c8_bom_and_end_of_input.1 _ "f" (by decide),
    c8_bom_and_end_of_input.2.1 stCtxtOpen (by decide),
    c8_bom_and_end_of_input.2.2.1 stIdOpen (by decide), ?_⟩
  have h := c8_bom_and_end_of_input.2.2.2 stStrOpen stStrDone (by decide) (by decide)
  rw [h.1]
  decide

/-- C9: committing a record whose key already exists raises the fatal
duplicate-entry diagnostic; the check precedes any mutation, and a commit
returns a successor state only when the key was absent, so a failed commit
leaves the catalog mapping unchanged.  Concretely, two records both with
`msgid "foo"` and no context fail on the second commit. -/
theorem c9_duplicate_commit :
    (∀ st : ParserState, (alookup st.messages st.curr_msg.key).isSome = true →
      add_message st = .error (.valueError st.filename st.lineno
        (.duplicateEntry st.curr_msg.key))) ∧
    (∀ st st' : ParserState, add_message st = .ok st' →
      alookup st.messages st.curr_msg.key = none) ∧
    add_message stFoo = .ok stAfterFoo ∧
    add_message stDup = .error (.valueError "f" 4 (.duplicateEntry (.single fooB))) := by
  refine ⟨?_, ?_, by decide, by decide⟩
  · intro st hsome
    simp only [add_message]
    cases hlook : alookup st.messages st.curr_msg.key with
    | some v => rfl
    | none => rw [hlook] at hsome; simp at hsome
  · intro st st' h
    exact (add_message_ok_fields h).2.2.2

/-- C9 witness: the duplicate-commit property applied to the state holding
`"foo"` already. -/
theorem c9_duplicate_commit_witness :
    add_message stDup = .error (.valueError stDup.filename stDup.lineno
      (.duplicateEntry stDup.curr_msg.key)) :=
  c9_duplicate_commit.1 stDup (by decide)

/-- C10: the parser starts with encoding latin-1; committing the header
record (empty msgid) sets the active encoding from the header's Content-Type
charset field, falling back to latin-1 when the field is absent; committing
any record with non-empty msgid never changes the active encoding; and the
latin-1 decode is total, mapping each byte to the code point of the same
value. -/
theorem c10_header_commit_encoding :
    (∀ f : String, (initState f).encoding = latin1Name) ∧
    (∀ st st' : ParserState, add_message st = .ok st' →
      st.curr_msg.msgid ≠ [] → st'.encoding = st.encoding) ∧
    (∀ (st st' : ParserState) (s : PStr), st.curr_msg.msgid = [] →
      st.curr_msg.msgstr = .single s → add_message st = .ok st' →
      st'.encoding = getEncoding s) ∧
    (∀ s : PStr, getContentCharset s = none → getEncoding s = latin1Name) ∧
    (∀ bs : Bytes, decodeLine latin1Name bs = bs) := by
  refine ⟨fun _ => rfl, ?_, ?_, ?_, fun _ => rfl⟩
  · intro st st' h hne
    simp only [add_message] at h
    cases hlook : alookup st.messages st.curr_msg.key with
    | some v => simp only [hlook] at h; simp at h
    | none =>
      simp only [hlook] at h
      rw [if_neg hne] at h
      injection h with h'
      subst h'
      rfl
  · intro st st' s hid hms h
    simp only [add_message] at h
    cases hlook : alookup st.messages st.curr_msg.key with
    | some v => simp only [hlook] at h; simp at h
    | none =>
      simp only [hlook] at h
      rw [if_pos hid, hms] at h
      simp only [getEncodingE] at h
      injection h with h'
      subst h'
      rfl
  · intro s hnone
    simp [getEncoding, hnone]

/-- C10 witness: committing the mac_roman header sets the encoding to
mac_roman, and committing a non-header record preserves the encoding. -/
theorem c10_header_commit_encoding_witness :
    stHdrDone.encoding = getEncoding hdrValue ∧
    getEncoding hdrValue = macRomanName ∧
    stAfterFoo.encoding = stFoo.encoding :=
  ⟨c10_header_commit_encoding.2.2.1 stHdr stHdrDone hdrValue (by decide) (by decide)
      (by decide),
    by decide,
    c10_header_commit_encoding.2.1 stFoo stAfterFoo (by decide) (by decide)⟩
